import Mathlib

/-!
Shallow embedding of the resilient HTTP request executor of
`plugins/scaffolder-backend-module-http-advanced/src/actions/http-advanced-action.ts`
(the feature-complete variant: `getRetryDelay`, `getValueByPath`,
`makeRequestWithRetry`, `handlePagination`, and the single-request handler's
summary construction), together with proofs of the specified properties.

The network is modelled as a function from the attempt index to the attempt's
outcome (a decoded response or a transport error); for pagination the server is
additionally a function of the query parameters the loop injects into the URL.
The executor's observable side effects (number of `fetch` calls, the argument of
each `sleep` call, the query parameters of each page request) are threaded as
explicit traces alongside the code's own accumulators.
-/

/-- Decoded JSON value, the shape of `response.json()` results. -/
inductive Json where
  | null
  | bool (b : Bool)
  | num (n : Int)
  | str (s : String)
  | arr (elems : List Json)
  | obj (fields : List (String × Json))

/-- A JavaScript value that may also be `undefined` (`Option.none`). -/
abbrev JsVal := Option Json

/-- JavaScript truthiness (`!!x`, `if (x)`) of a possibly-undefined value. -/
def jsTruthy : JsVal → Bool
  | none => false
  | some Json.null => false
  | some (Json.bool b) => b
  | some (Json.num n) => decide (n ≠ 0)
  | some (Json.str s) => decide (s ≠ "")
  | some (Json.arr _) => true
  | some (Json.obj _) => true

/-- JavaScript string coercion as applied by `URLSearchParams.set` to the cursor
value. Claims only exercise string cursors; coercion of array values (element
join) is elided to a constant, which no claim observes. -/
def jsToString : Json → String
  | Json.null => "null"
  | Json.bool b => cond b "true" "false"
  | Json.num n => toString n
  | Json.str s => s
  | Json.arr _ => ""
  | Json.obj _ => "[object Object]"

/-- One step of `current?.[key]`: property access on a possibly-undefined
value, with numeric indexing into arrays. -/
def jsIndex : JsVal → String → JsVal
  | some (Json.obj fields), key => (fields.find? (fun p => p.1 == key)).map (fun p => p.2)
  | some (Json.arr elems), key =>
      match key.toNat? with
      | some i => elems.get? i
      | none => none
  | _, _ => none

/-- Split a character list at `'.'` separators, accumulating the current
segment in reverse. Implements the semantics of `path.split('.')` with
structural recursion so the kernel can evaluate it. -/
def splitPathAux (cur : List Char) : List Char → List String
  | [] => [String.mk cur.reverse]
  | ch :: rest =>
      if ch = '.' then String.mk cur.reverse :: splitPathAux [] rest
      else splitPathAux (ch :: cur) rest

/-- `path.split('.')`. -/
def splitPath (path : String) : List String :=
  splitPathAux [] path.data

/-- `getValueByPath`: `path.split('.').reduce((current, key) => current?.[key], obj)`. -/
def getValueByPath (obj : JsVal) (path : String) : JsVal :=
  (splitPath path).foldl jsIndex obj

/-- `retryConfig.retryDelay || 1000`: JavaScript numeric falsy-or. -/
def jsOrNat (n d : Nat) : Nat := if n = 0 then d else n

/-- `getRetryDelay(attempt, baseDelay, exponential)`:
`exponential ? baseDelay * 2 ** (attempt - 1) : baseDelay`. -/
def getRetryDelay (attempt : Nat) (baseDelay : Nat) (exponential : Bool) : Nat :=
  if exponential then baseDelay * 2 ^ (attempt - 1) else baseDelay

/-- The `retry` input object after zod defaulting (`enabled`, `maxRetries`,
`retryDelay`, `retryOn`, `exponentialBackoff`). -/
structure RetryConfig where
  enabled : Bool
  maxRetries : Nat
  retryDelay : Nat
  retryOn : List Nat
  exponentialBackoff : Bool
deriving DecidableEq

/-- `retryConfig?.enabled ? retryConfig.maxRetries : 0`. -/
def effMaxRetries : Option RetryConfig → Nat
  | none => 0
  | some c => if c.enabled then c.maxRetries else 0

/-- `retryConfig?.enabled` as a boolean. -/
def rcEnabled : Option RetryConfig → Bool
  | none => false
  | some c => c.enabled

/-- `retryConfig.retryOn` (empty when no config; the guard `retryConfig?.enabled`
short-circuits before this is read in the source). -/
def rcRetryOn : Option RetryConfig → List Nat
  | none => []
  | some c => c.retryOn

/-- The delay the loop computes before a retry:
`getRetryDelay(attempt + 1, retryConfig.retryDelay || 1000, retryConfig.exponentialBackoff ?? true)`.
Only evaluated when a config is present and enabled. -/
def rcDelayAt (rc : Option RetryConfig) (attempt : Nat) : Nat :=
  match rc with
  | none => getRetryDelay attempt 1000 true
  | some c => getRetryDelay attempt (jsOrNat c.retryDelay 1000) c.exponentialBackoff

/-- Outcome of one `fetch` attempt: a response with a status and decoded JSON
body, or a transport failure (network error or timeout abort) with a message. -/
inductive AttemptOutcome where
  | ok (status : Nat) (body : Json)
  | err (msg : String)

/-- The record `makeRequestWithRetry` returns: `{ response, retryCount, retryDelayMs }`,
with the response reduced to its status and decoded body. -/
structure RetryResult where
  status : Nat
  body : Json
  retryCount : Nat
  retryDelayMs : Nat

/-- Result of one run of `makeRequestWithRetry` together with its observable
side-effect traces: how many `fetch` calls were made and the argument of every
`sleep` call, in order. -/
structure AttemptRun where
  result : Except String RetryResult
  attemptsMade : Nat
  sleeps : List Nat

/-- The `for (let attempt = 0; attempt <= maxRetries; attempt++)` loop of
`makeRequestWithRetry`. `fuel` is the number of loop iterations still permitted
(`maxRetries + 1 - attempt`); exhausting it is the fall-through after the loop,
`throw lastError || new Error('Request failed after all retries')`. -/
def goAttempt (f : Nat → AttemptOutcome) (rc : Option RetryConfig) (maxRetries : Nat) :
    Nat → Nat → Nat → Nat → Nat → List Nat → Option String → AttemptRun
  | 0, _attempt, _retryCount, _totalDelay, attemptsMade, sleeps, lastErr =>
      ⟨Except.error (lastErr.getD "Request failed after all retries"), attemptsMade, sleeps⟩
  | fuel + 1, attempt, retryCount, totalDelay, attemptsMade, sleeps, lastErr =>
      match f attempt with
      | AttemptOutcome.ok status body =>
          if rcEnabled rc && decide (attempt < maxRetries) && (rcRetryOn rc).contains status then
            goAttempt f rc maxRetries fuel (attempt + 1) (retryCount + 1)
              (totalDelay + rcDelayAt rc (attempt + 1)) (attemptsMade + 1)
              (sleeps ++ [rcDelayAt rc (attempt + 1)]) lastErr
          else
            ⟨Except.ok ⟨status, body, retryCount, totalDelay⟩, attemptsMade + 1, sleeps⟩
      | AttemptOutcome.err msg =>
          if decide (attempt < maxRetries) && rcEnabled rc then
            goAttempt f rc maxRetries fuel (attempt + 1) (retryCount + 1)
              (totalDelay + rcDelayAt rc (attempt + 1)) (attemptsMade + 1)
              (sleeps ++ [rcDelayAt rc (attempt + 1)]) (some msg)
          else
            ⟨Except.error msg, attemptsMade + 1, sleeps⟩

/-- `makeRequestWithRetry` with its side-effect traces. -/
def makeRequestWithRetryRun (f : Nat → AttemptOutcome) (rc : Option RetryConfig) : AttemptRun :=
  goAttempt f rc (effMaxRetries rc) (effMaxRetries rc + 1) 0 0 0 0 [] none

/-- `makeRequestWithRetry(url, options, retryConfig)`: the returned value, or the
propagated transport error. -/
def makeRequestWithRetry (f : Nat → AttemptOutcome) (rc : Option RetryConfig) :
    Except String RetryResult :=
  (makeRequestWithRetryRun f rc).result

/-- `pagination.type`. -/
inductive PagType where
  | offset
  | page
  | cursor
deriving DecidableEq, BEq

/-- The `pagination` input object after zod defaulting. -/
structure PaginationConfig where
  type : PagType
  limitParam : String
  offsetParam : String
  pageParam : String
  cursorParam : String
  maxPages : Nat
  resultsPath : Option String
  nextCursorPath : Option String
deriving DecidableEq

/-- Query parameters the loop injects for one page (`urlObj.searchParams.set`
calls, in order). For cursor style the parameter is only set `if (cursor)`. -/
def pageQueryParams (cfg : PaginationConfig) (page : Nat) (cursor : JsVal) :
    List (String × String) :=
  match cfg.type with
  | PagType.offset =>
      [(cfg.offsetParam, toString ((page - 1) * 50)), (cfg.limitParam, "50")]
  | PagType.page => [(cfg.pageParam, toString page)]
  | PagType.cursor =>
      match cursor with
      | some v => if jsTruthy (some v) then [(cfg.cursorParam, jsToString v)] else []
      | none => []

/-- `paginationConfig.resultsPath ? getValueByPath(data, resultsPath) : data`
(an empty-string path is falsy in JavaScript and selects the whole body). -/
def extractResults (cfg : PaginationConfig) (data : Json) : JsVal :=
  match cfg.resultsPath with
  | some p => if p = "" then some data else getValueByPath (some data) p
  | none => some data

/-- `results.push(...pageResults)` when the extracted value is an array,
`results.push(pageResults)` otherwise (also pushing `undefined` as one element). -/
def pushResults (acc : List JsVal) (pageResults : JsVal) : List JsVal :=
  match pageResults with
  | some (Json.arr xs) => acc ++ xs.map some
  | other => acc ++ [other]

/-- `Array.isArray(pageResults) && pageResults.length > 0`. -/
def isNonemptyArray : JsVal → Bool
  | some (Json.arr xs) => !xs.isEmpty
  | _ => false

/-- Truthiness of `paginationConfig.nextCursorPath` (an empty string is falsy). -/
def cursorPathActive (cfg : PaginationConfig) : Bool :=
  match cfg.nextCursorPath with
  | some p => decide (p ≠ "")
  | none => false

/-- The continuation update at the end of a page iteration: new `hasMore` and
new `cursor`. Mirrors
`if (paginationConfig.type === 'cursor' && paginationConfig.nextCursorPath) { cursor = getValueByPath(data, nextCursorPath); hasMore = !!cursor } else hasMore = Array.isArray(pageResults) && pageResults.length > 0`. -/
def nextPageState (cfg : PaginationConfig) (data : Json) (pageResults : JsVal)
    (cursor : JsVal) : Bool × JsVal :=
  if cfg.type == PagType.cursor && cursorPathActive cfg then
    match cfg.nextCursorPath with
    | some p =>
        let c := getValueByPath (some data) p
        (jsTruthy c, c)
    | none => (isNonemptyArray pageResults, cursor)
  else (isNonemptyArray pageResults, cursor)

/-- Result of a pagination run together with the query parameters of every page
request actually issued, in order. -/
structure PageRun where
  result : Except String (List JsVal × Nat)
  requests : List (List (String × String))

/-- The `while (hasMore && page <= paginationConfig.maxPages)` loop of
`handlePagination`. `fuel` bounds the remaining iterations
(`maxPages + 1 - page`); both fuel exhaustion and a false condition produce the
loop's exit value `{ results, pagesProcessed: page - 1 }`. The server is a
function of the injected query parameters and the retry attempt index. -/
def goPage (server : List (String × String) → Nat → AttemptOutcome)
    (rc : Option RetryConfig) (cfg : PaginationConfig) :
    Nat → Nat → Bool → JsVal → List JsVal → List (List (String × String)) → PageRun
  | 0, page, _hasMore, _cursor, acc, reqs => ⟨Except.ok (acc, page - 1), reqs⟩
  | fuel + 1, page, hasMore, cursor, acc, reqs =>
      if hasMore && decide (page ≤ cfg.maxPages) then
        match makeRequestWithRetry (server (pageQueryParams cfg page cursor)) rc with
        | Except.error e => ⟨Except.error e, reqs ++ [pageQueryParams cfg page cursor]⟩
        | Except.ok r =>
            goPage server rc cfg fuel (page + 1)
              (nextPageState cfg r.body (extractResults cfg r.body) cursor).1
              (nextPageState cfg r.body (extractResults cfg r.body) cursor).2
              (pushResults acc (extractResults cfg r.body))
              (reqs ++ [pageQueryParams cfg page cursor])
      else ⟨Except.ok (acc, page - 1), reqs⟩

/-- `handlePagination` with its request trace: starts at `page = 1`,
`hasMore = true`, `cursor` undefined, empty aggregate. -/
def handlePaginationRun (server : List (String × String) → Nat → AttemptOutcome)
    (rc : Option RetryConfig) (cfg : PaginationConfig) : PageRun :=
  goPage server rc cfg cfg.maxPages 1 true none [] []

/-- `handlePagination(baseUrl, options, paginationConfig, retryConfig)`:
`{ results, pagesProcessed }`, or the propagated fatal error. -/
def handlePagination (server : List (String × String) → Nat → AttemptOutcome)
    (rc : Option RetryConfig) (cfg : PaginationConfig) :
    Except String (List JsVal × Nat) :=
  (handlePaginationRun server rc cfg).result

/-- The `summary` block of the advanced action's structured output
(single-request mode): `success: true`, `status: response.status`, and
`retries` present only when `retryCount > 0`. -/
structure Summary where
  success : Bool
  status : Nat
  retries : Option Nat
deriving DecidableEq

/-- Lines building `structuredOutput.summary` in the advanced action. -/
def buildAdvancedSummary (r : RetryResult) : Summary :=
  { success := true
    status := r.status
    retries := if r.retryCount > 0 then some r.retryCount else none }

/-- Single-request mode of the advanced action's handler (no conditional
validation configured): run `makeRequestWithRetry`, build the summary; a thrown
error is wrapped as `HTTP request failed: ...`. -/
def advancedSingleRequest (f : Nat → AttemptOutcome) (rc : Option RetryConfig) :
    Except String Summary :=
  match makeRequestWithRetry f rc with
  | Except.error e => Except.error ("HTTP request failed: " ++ e)
  | Except.ok r => Except.ok (buildAdvancedSummary r)

/-- The `success` field as computed by the proxy-variant action
(`responseStatus >= 200 && responseStatus < 300`). -/
def proxySummarySuccess (status : Nat) : Bool :=
  decide (200 ≤ status) && decide (status < 300)

/-- Sum of the spec's backoff formula over zero-based retry indices
`0..n-1`: each retry's delay is `baseDelay * 2^index` when exponential, and
`baseDelay` otherwise. Stated from the spec's words, to be compared with the
delays the code accumulates. -/
def specBackoffSum (baseDelay : Nat) (exponential : Bool) (n : Nat) : Nat :=
  ((List.range n).map (fun i => if exponential then baseDelay * 2 ^ i else baseDelay)).sum

/-- The spec's per-retry delay list over zero-based retry indices `0..n-1`. -/
def specBackoffDelays (baseDelay : Nat) (exponential : Bool) (n : Nat) : List Nat :=
  (List.range n).map (fun i => if exponential then baseDelay * 2 ^ i else baseDelay)

/-! ## Retry-loop lemmas -/

/-- Total delay the loop accumulates for `n` consecutive retries whose
`getRetryDelay` attempt arguments start at `a`. -/
def delayFrom (rc : Option RetryConfig) : Nat → Nat → Nat
  | _, 0 => 0
  | a, n + 1 => rcDelayAt rc a + delayFrom rc (a + 1) n

/-- The individual sleep arguments for `n` consecutive retries whose
`getRetryDelay` attempt arguments start at `a`. -/
def sleepsFrom (rc : Option RetryConfig) : Nat → Nat → List Nat
  | _, 0 => []
  | a, n + 1 => rcDelayAt rc a :: sleepsFrom rc (a + 1) n

lemma sum_sleepsFrom (rc : Option RetryConfig) :
    ∀ n a, (sleepsFrom rc a n).sum = delayFrom rc a n := by
  intro n
  induction n with
  | zero => intro a; simp [sleepsFrom, delayFrom]
  | succ m ih => intro a; simp [sleepsFrom, delayFrom, ih]

lemma goAttempt_all_retryable (c : RetryConfig) (f : Nat → AttemptOutcome)
    (s : Nat → Nat) (b : Nat → Json)
    (hen : c.enabled = true)
    (hf : ∀ i, f i = AttemptOutcome.ok (s i) (b i))
    (hs : ∀ i, s i ∈ c.retryOn) :
    ∀ n attempt retryCount totalDelay attemptsMade sleeps lastErr,
      attempt + n = c.maxRetries →
      goAttempt f (some c) c.maxRetries (n + 1) attempt retryCount totalDelay
          attemptsMade sleeps lastErr =
        ⟨Except.ok ⟨s c.maxRetries, b c.maxRetries, retryCount + n,
            totalDelay + delayFrom (some c) (attempt + 1) n⟩,
          attemptsMade + n + 1,
          sleeps ++ sleepsFrom (some c) (attempt + 1) n⟩ := by
  intro n
  induction n with
  | zero =>
      intro attempt retryCount totalDelay attemptsMade sleeps lastErr hA
      have hA' : attempt = c.maxRetries := by omega
      subst hA'
      simp [goAttempt, hf, rcEnabled, hen, delayFrom, sleepsFrom]
  | succ m ih =>
      intro attempt retryCount totalDelay attemptsMade sleeps lastErr hA
      have hlt : attempt < c.maxRetries := by omega
      have hcont : (c.retryOn).contains (s attempt) = true :=
        List.elem_iff.mpr (hs attempt)
      rw [goAttempt]
      rw [hf attempt]
      simp only [rcEnabled, hen, rcRetryOn, hcont, decide_eq_true hlt, Bool.and_self,
        Bool.true_and, Bool.and_true, if_true]
      rw [ih (attempt + 1) (retryCount + 1) (totalDelay + rcDelayAt (some c) (attempt + 1))
        (attemptsMade + 1) (sleeps ++ [rcDelayAt (some c) (attempt + 1)]) lastErr (by omega)]
      simp only [AttemptRun.mk.injEq, Except.ok.injEq, RetryResult.mk.injEq, delayFrom,
        sleepsFrom, List.append_assoc, List.singleton_append, true_and, and_true]
      omega

lemma effMaxRetries_pos_enabled (rc : Option RetryConfig) (h : 0 < effMaxRetries rc) :
    rcEnabled rc = true := by
  cases rc with
  | none => simp [effMaxRetries] at h
  | some c =>
      cases hc : c.enabled with
      | true => simp [rcEnabled, hc]
      | false => simp [effMaxRetries, hc] at h

lemma goAttempt_succ_ok (f : Nat → AttemptOutcome) (rc : Option RetryConfig)
    (maxRetries fuel attempt retryCount totalDelay attemptsMade : Nat)
    (sleeps : List Nat) (lastErr : Option String) (st : Nat) (bd : Json)
    (hfa : f attempt = AttemptOutcome.ok st bd) :
    goAttempt f rc maxRetries (fuel + 1) attempt retryCount totalDelay
        attemptsMade sleeps lastErr =
      if rcEnabled rc && decide (attempt < maxRetries) && (rcRetryOn rc).contains st then
        goAttempt f rc maxRetries fuel (attempt + 1) (retryCount + 1)
          (totalDelay + rcDelayAt rc (attempt + 1)) (attemptsMade + 1)
          (sleeps ++ [rcDelayAt rc (attempt + 1)]) lastErr
      else ⟨Except.ok ⟨st, bd, retryCount, totalDelay⟩, attemptsMade + 1, sleeps⟩ := by
  rw [goAttempt, hfa]

lemma goAttempt_succ_err (f : Nat → AttemptOutcome) (rc : Option RetryConfig)
    (maxRetries fuel attempt retryCount totalDelay attemptsMade : Nat)
    (sleeps : List Nat) (lastErr : Option String) (msg : String)
    (hfa : f attempt = AttemptOutcome.err msg) :
    goAttempt f rc maxRetries (fuel + 1) attempt retryCount totalDelay
        attemptsMade sleeps lastErr =
      if decide (attempt < maxRetries) && rcEnabled rc then
        goAttempt f rc maxRetries fuel (attempt + 1) (retryCount + 1)
          (totalDelay + rcDelayAt rc (attempt + 1)) (attemptsMade + 1)
          (sleeps ++ [rcDelayAt rc (attempt + 1)]) (some msg)
      else ⟨Except.error msg, attemptsMade + 1, sleeps⟩ := by
  rw [goAttempt, hfa]

lemma goAttempt_all_err (rc : Option RetryConfig) (f : Nat → AttemptOutcome)
    (m : Nat → String)
    (hf : ∀ i, f i = AttemptOutcome.err (m i)) :
    ∀ n attempt retryCount totalDelay attemptsMade sleeps lastErr,
      attempt + n = effMaxRetries rc →
      (goAttempt f rc (effMaxRetries rc) (n + 1) attempt retryCount totalDelay
          attemptsMade sleeps lastErr).result =
        Except.error (m (effMaxRetries rc)) := by
  intro n
  induction n with
  | zero =>
      intro attempt retryCount totalDelay attemptsMade sleeps lastErr hA
      have hA' : attempt = effMaxRetries rc := by omega
      subst hA'
      rw [goAttempt_succ_err _ _ _ _ _ _ _ _ _ _ _ (hf _)]
      rw [if_neg (by simp)]
  | succ k ih =>
      intro attempt retryCount totalDelay attemptsMade sleeps lastErr hA
      have hlt : attempt < effMaxRetries rc := by omega
      have hen : rcEnabled rc = true := effMaxRetries_pos_enabled rc (by omega)
      rw [goAttempt_succ_err _ _ _ _ _ _ _ _ _ _ _ (hf _)]
      rw [if_pos (by simp [hen, hlt])]
      exact ih (attempt + 1) (retryCount + 1) (totalDelay + rcDelayAt rc (attempt + 1))
        (attemptsMade + 1) (sleeps ++ [rcDelayAt rc (attempt + 1)]) (some (m attempt)) (by omega)

lemma goAttempt_ok_of_no_transport_err (rc : Option RetryConfig)
    (f : Nat → AttemptOutcome)
    (hf : ∀ i, ∃ st bd, f i = AttemptOutcome.ok st bd) :
    ∀ n attempt retryCount totalDelay attemptsMade sleeps lastErr,
      attempt + n = effMaxRetries rc →
      ∃ r, (goAttempt f rc (effMaxRetries rc) (n + 1) attempt retryCount totalDelay
          attemptsMade sleeps lastErr).result = Except.ok r := by
  intro n
  induction n with
  | zero =>
      intro attempt retryCount totalDelay attemptsMade sleeps lastErr hA
      obtain ⟨st, bd, hst⟩ := hf attempt
      have hA' : attempt = effMaxRetries rc := by omega
      refine ⟨⟨st, bd, retryCount, totalDelay⟩, ?_⟩
      rw [goAttempt_succ_ok _ _ _ _ _ _ _ _ _ _ st bd hst]
      rw [if_neg (by simp [hA'])]
  | succ k ih =>
      intro attempt retryCount totalDelay attemptsMade sleeps lastErr hA
      obtain ⟨st, bd, hst⟩ := hf attempt
      rw [goAttempt_succ_ok _ _ _ _ _ _ _ _ _ _ st bd hst]
      by_cases hretry :
          (rcEnabled rc && decide (attempt < effMaxRetries rc) &&
            (rcRetryOn rc).contains st) = true
      · rw [if_pos hretry]
        exact ih (attempt + 1) (retryCount + 1) (totalDelay + rcDelayAt rc (attempt + 1))
          (attemptsMade + 1) (sleeps ++ [rcDelayAt rc (attempt + 1)]) lastErr (by omega)
      · rw [if_neg hretry]
        exact ⟨⟨st, bd, retryCount, totalDelay⟩, rfl⟩

lemma goAttempt_retryCount_le (rc : Option RetryConfig) (f : Nat → AttemptOutcome)
    (maxRetries : Nat) :
    ∀ fuel attempt retryCount totalDelay attemptsMade sleeps lastErr r,
      retryCount ≤ attempt → attempt ≤ maxRetries →
      (goAttempt f rc maxRetries fuel attempt retryCount totalDelay
          attemptsMade sleeps lastErr).result = Except.ok r →
      r.retryCount ≤ maxRetries := by
  intro fuel
  induction fuel with
  | zero =>
      intro attempt retryCount totalDelay attemptsMade sleeps lastErr r _ _ hres
      simp [goAttempt] at hres
  | succ k ih =>
      intro attempt retryCount totalDelay attemptsMade sleeps lastErr r hra hmx hres
      cases hfa : f attempt with
      | ok st bd =>
          rw [goAttempt_succ_ok _ _ _ _ _ _ _ _ _ _ st bd hfa] at hres
          by_cases hretry :
              (rcEnabled rc && decide (attempt < maxRetries) &&
                (rcRetryOn rc).contains st) = true
          · rw [if_pos hretry] at hres
            have hlt : attempt < maxRetries := by
              simp only [Bool.and_eq_true, decide_eq_true_eq] at hretry
              exact hretry.1.2
            exact ih (attempt + 1) (retryCount + 1)
              (totalDelay + rcDelayAt rc (attempt + 1)) (attemptsMade + 1)
              (sleeps ++ [rcDelayAt rc (attempt + 1)]) lastErr r (by omega) (by omega) hres
          · rw [if_neg hretry] at hres
            simp only [Except.ok.injEq] at hres
            subst hres
            simpa using le_trans hra hmx
      | err msg =>
          rw [goAttempt_succ_err _ _ _ _ _ _ _ _ _ _ _ hfa] at hres
          by_cases hretry : (decide (attempt < maxRetries) && rcEnabled rc) = true
          · rw [if_pos hretry] at hres
            have hlt : attempt < maxRetries := by
              simp only [Bool.and_eq_true, decide_eq_true_eq] at hretry
              exact hretry.1
            exact ih (attempt + 1) (retryCount + 1)
              (totalDelay + rcDelayAt rc (attempt + 1)) (attemptsMade + 1)
              (sleeps ++ [rcDelayAt rc (attempt + 1)]) (some msg) r (by omega) (by omega) hres
          · rw [if_neg hretry] at hres
            simp at hres

lemma sleepsFrom_some_spec (c : RetryConfig) :
    ∀ n a, sleepsFrom (some c) (a + 1) n =
      (List.range n).map (fun i =>
        if c.exponentialBackoff then jsOrNat c.retryDelay 1000 * 2 ^ (a + i)
        else jsOrNat c.retryDelay 1000) := by
  intro n
  induction n with
  | zero => intro a; simp [sleepsFrom]
  | succ m ih =>
      intro a
      rw [List.range_succ_eq_map, List.map_cons, List.map_map, sleepsFrom]
      congr 1
      rw [ih (a + 1)]
      apply List.map_congr_left
      intro i _
      simp only [Function.comp_apply]
      have h1 : a + 1 + i = a + i.succ := by omega
      rw [h1]

lemma sleepsFrom_one_eq_specBackoffDelays (c : RetryConfig) (h : c.retryDelay ≠ 0)
    (n : Nat) :
    sleepsFrom (some c) 1 n = specBackoffDelays c.retryDelay c.exponentialBackoff n := by
  have h0 := sleepsFrom_some_spec c n 0
  simp only [Nat.zero_add] at h0
  rw [h0, specBackoffDelays]
  simp [jsOrNat, h]

lemma delayFrom_one_eq_specBackoffSum (c : RetryConfig) (h : c.retryDelay ≠ 0)
    (n : Nat) :
    delayFrom (some c) 1 n = specBackoffSum c.retryDelay c.exponentialBackoff n := by
  rw [← sum_sleepsFrom, sleepsFrom_one_eq_specBackoffDelays c h n]
  rfl

lemma effMaxRetries_zero_of_disabled (rc : Option RetryConfig)
    (h : ∀ c, rc = some c → c.enabled = false ∨ c.maxRetries = 0) :
    effMaxRetries rc = 0 := by
  cases rc with
  | none => rfl
  | some c =>
      rcases h c rfl with hc | hc
      · simp [effMaxRetries, hc]
      · simp [effMaxRetries, hc]

lemma makeRequestWithRetryRun_no_retry (f : Nat → AttemptOutcome)
    (rc : Option RetryConfig) (h : effMaxRetries rc = 0) :
    makeRequestWithRetryRun f rc =
      match f 0 with
      | AttemptOutcome.ok st bd => ⟨Except.ok ⟨st, bd, 0, 0⟩, 1, []⟩
      | AttemptOutcome.err msg => ⟨Except.error msg, 1, []⟩ := by
  rw [makeRequestWithRetryRun, h]
  cases hf0 : f 0 with
  | ok st bd =>
      rw [goAttempt_succ_ok _ _ _ _ _ _ _ _ _ _ st bd hf0]
      rw [if_neg (by simp)]
  | err msg =>
      rw [goAttempt_succ_err _ _ _ _ _ _ _ _ _ _ _ hf0]
      rw [if_neg (by simp)]

/-! ## Pagination-loop lemmas -/

lemma goPage_step_ok (server : List (String × String) → Nat → AttemptOutcome)
    (rc : Option RetryConfig) (cfg : PaginationConfig)
    (fuel page : Nat) (hasMore : Bool) (cursor : JsVal) (acc : List JsVal)
    (reqs : List (List (String × String))) (r : RetryResult)
    (hcond : (hasMore && decide (page ≤ cfg.maxPages)) = true)
    (hreq : makeRequestWithRetry (server (pageQueryParams cfg page cursor)) rc =
      Except.ok r) :
    goPage server rc cfg (fuel + 1) page hasMore cursor acc reqs =
      goPage server rc cfg fuel (page + 1)
        (nextPageState cfg r.body (extractResults cfg r.body) cursor).1
        (nextPageState cfg r.body (extractResults cfg r.body) cursor).2
        (pushResults acc (extractResults cfg r.body))
        (reqs ++ [pageQueryParams cfg page cursor]) := by
  rw [goPage, if_pos hcond, hreq]

lemma goPage_step_err (server : List (String × String) → Nat → AttemptOutcome)
    (rc : Option RetryConfig) (cfg : PaginationConfig)
    (fuel page : Nat) (hasMore : Bool) (cursor : JsVal) (acc : List JsVal)
    (reqs : List (List (String × String))) (e : String)
    (hcond : (hasMore && decide (page ≤ cfg.maxPages)) = true)
    (hreq : makeRequestWithRetry (server (pageQueryParams cfg page cursor)) rc =
      Except.error e) :
    goPage server rc cfg (fuel + 1) page hasMore cursor acc reqs =
      ⟨Except.error e, reqs ++ [pageQueryParams cfg page cursor]⟩ := by
  rw [goPage, if_pos hcond, hreq]

lemma goPage_no_more (server : List (String × String) → Nat → AttemptOutcome)
    (rc : Option RetryConfig) (cfg : PaginationConfig) :
    ∀ fuel page cursor acc reqs,
      goPage server rc cfg fuel page false cursor acc reqs =
        ⟨Except.ok (acc, page - 1), reqs⟩ := by
  intro fuel page cursor acc reqs
  cases fuel with
  | zero => rw [goPage]
  | succ k => rw [goPage, if_neg (by simp)]

lemma goPage_pagesProcessed_le (server : List (String × String) → Nat → AttemptOutcome)
    (rc : Option RetryConfig) (cfg : PaginationConfig) :
    ∀ fuel page hasMore cursor acc reqs items n,
      fuel + page = cfg.maxPages + 1 →
      (goPage server rc cfg fuel page hasMore cursor acc reqs).result =
        Except.ok (items, n) →
      n ≤ cfg.maxPages := by
  intro fuel
  induction fuel with
  | zero =>
      intro page hasMore cursor acc reqs items n hinv hres
      rw [goPage] at hres
      simp only [Except.ok.injEq, Prod.mk.injEq] at hres
      omega
  | succ k ih =>
      intro page hasMore cursor acc reqs items n hinv hres
      rw [goPage] at hres
      by_cases hcond : (hasMore && decide (page ≤ cfg.maxPages)) = true
      · rw [if_pos hcond] at hres
        cases hreq : makeRequestWithRetry (server (pageQueryParams cfg page cursor)) rc with
        | error e => rw [hreq] at hres; simp at hres
        | ok r =>
            rw [hreq] at hres
            exact ih (page + 1)
              (nextPageState cfg r.body (extractResults cfg r.body) cursor).1
              (nextPageState cfg r.body (extractResults cfg r.body) cursor).2
              (pushResults acc (extractResults cfg r.body))
              (reqs ++ [pageQueryParams cfg page cursor]) items n (by omega) hres
      · rw [if_neg hcond] at hres
        simp only [Except.ok.injEq, Prod.mk.injEq] at hres
        omega

lemma goPage_requests_le (server : List (String × String) → Nat → AttemptOutcome)
    (rc : Option RetryConfig) (cfg : PaginationConfig) :
    ∀ fuel page hasMore cursor acc reqs,
      (goPage server rc cfg fuel page hasMore cursor acc reqs).requests.length ≤
        reqs.length + fuel := by
  intro fuel
  induction fuel with
  | zero =>
      intro page hasMore cursor acc reqs
      rw [goPage]
      simp
  | succ k ih =>
      intro page hasMore cursor acc reqs
      rw [goPage]
      by_cases hcond : (hasMore && decide (page ≤ cfg.maxPages)) = true
      · rw [if_pos hcond]
        cases hreq : makeRequestWithRetry (server (pageQueryParams cfg page cursor)) rc with
        | error e =>
            exact (by simp only [List.length_append, List.length_singleton]; omega :
              (reqs ++ [pageQueryParams cfg page cursor]).length ≤ reqs.length + (k + 1))
        | ok r =>
            exact le_trans (ih (page + 1) _ _ _ _)
              (by simp only [List.length_append, List.length_singleton]; omega)
      · rw [if_neg hcond]
        simp

lemma makeRequestWithRetry_none_ok (f : Nat → AttemptOutcome) (st : Nat) (bd : Json)
    (h : f 0 = AttemptOutcome.ok st bd) :
    makeRequestWithRetry f none = Except.ok ⟨st, bd, 0, 0⟩ := by
  rw [makeRequestWithRetry, makeRequestWithRetryRun_no_retry f none rfl, h]

lemma nextPageState_cursor_active (cfg : PaginationConfig) (data : Json)
    (pageResults : JsVal) (cursor : JsVal) (p : String)
    (ht : cfg.type = PagType.cursor) (hp : cfg.nextCursorPath = some p) (hne : p ≠ "") :
    nextPageState cfg data pageResults cursor =
      (jsTruthy (getValueByPath (some data) p), getValueByPath (some data) p) := by
  have h1 : cursorPathActive cfg = true := by
    simp [cursorPathActive, hp, hne]
  have hcond : (cfg.type == PagType.cursor && cursorPathActive cfg) = true := by
    rw [ht, h1, Bool.and_true]
    rfl
  rw [nextPageState, if_pos hcond, hp]

lemma nextPageState_cursor_inactive (cfg : PaginationConfig) (data : Json)
    (pageResults : JsVal) (cursor : JsVal)
    (h : (cfg.type == PagType.cursor && cursorPathActive cfg) = false) :
    nextPageState cfg data pageResults cursor = (isNonemptyArray pageResults, cursor) := by
  rw [nextPageState, if_neg]
  simp [h]

/-- An API that always answers immediately with a non-empty one-element array. -/
def serverInf : List (String × String) → Nat → AttemptOutcome :=
  fun _ _ => AttemptOutcome.ok 200 (Json.arr [Json.num 1])

/-- Page-style pagination over `serverInf` with a given page cap. -/
def cfgInf (m : Nat) : PaginationConfig :=
  ⟨PagType.page, "limit", "offset", "page", "cursor", m, none, none⟩

lemma goPage_serverInf (m : Nat) :
    ∀ fuel page acc reqs, fuel + page = m + 1 →
      (goPage serverInf none (cfgInf m) fuel page true none acc reqs).result =
        Except.ok (acc ++ List.replicate fuel (some (Json.num 1)), m) := by
  intro fuel
  induction fuel with
  | zero =>
      intro page acc reqs hinv
      rw [goPage]
      have hpm : page - 1 = m := by omega
      simp [hpm]
  | succ k ih =>
      intro page acc reqs hinv
      have hcond : (true && decide (page ≤ (cfgInf m).maxPages)) = true := by
        simp only [Bool.true_and, decide_eq_true_eq]
        show page ≤ m
        omega
      rw [goPage_step_ok serverInf none (cfgInf m) k page true none acc reqs
        ⟨200, Json.arr [Json.num 1], 0, 0⟩ hcond
        (makeRequestWithRetry_none_ok _ 200 (Json.arr [Json.num 1]) rfl)]
      have hnext : nextPageState (cfgInf m) (Json.arr [Json.num 1])
          (extractResults (cfgInf m) (Json.arr [Json.num 1])) none =
          (true, none) := by
        rw [nextPageState_cursor_inactive]
        · rfl
        · rfl
      rw [show (⟨200, Json.arr [Json.num 1], 0, 0⟩ : RetryResult).body =
        Json.arr [Json.num 1] from rfl, hnext]
      rw [ih (page + 1) (pushResults acc (extractResults (cfgInf m) (Json.arr [Json.num 1])))
        (reqs ++ [pageQueryParams (cfgInf m) page none]) (by omega)]
      simp only [Except.ok.injEq, Prod.mk.injEq, and_true]
      show acc ++ [some (Json.num 1)] ++ List.replicate k (some (Json.num 1)) =
    acc ++ List.replicate (k + 1) (some (Json.num 1))
      rw [List.append_assoc, List.replicate_succ]
      rfl

lemma pageQueryParams_cursor_none (cfg : PaginationConfig)
    (ht : cfg.type = PagType.cursor) (page : Nat) :
    pageQueryParams cfg page none = [] := by
  rw [pageQueryParams, ht]

lemma goPage_cursor_inactive_requests
    (server : List (String × String) → Nat → AttemptOutcome)
    (rc : Option RetryConfig) (cfg : PaginationConfig)
    (ht : cfg.type = PagType.cursor) (hpath : cursorPathActive cfg = false) :
    ∀ fuel page hasMore acc reqs,
      (∀ q ∈ reqs, q = []) →
      ∀ q ∈ (goPage server rc cfg fuel page hasMore none acc reqs).requests, q = [] := by
  have hcondF : (cfg.type == PagType.cursor && cursorPathActive cfg) = false := by
    rw [hpath, Bool.and_false]
  intro fuel
  induction fuel with
  | zero =>
      intro page hasMore acc reqs hreqs q hq
      rw [goPage] at hq
      exact hreqs q hq
  | succ k ih =>
      intro page hasMore acc reqs hreqs q hq
      by_cases hcond : (hasMore && decide (page ≤ cfg.maxPages)) = true
      · cases hreq : makeRequestWithRetry (server (pageQueryParams cfg page none)) rc with
        | error e =>
            rw [goPage_step_err _ _ _ _ _ _ _ _ _ _ hcond hreq] at hq
            simp only [List.mem_append, List.mem_singleton] at hq
            rcases hq with hq | hq
            · exact hreqs q hq
            · rw [hq]
              exact pageQueryParams_cursor_none cfg ht page
        | ok r =>
            rw [goPage_step_ok _ _ _ _ _ _ _ _ _ _ hcond hreq,
              nextPageState_cursor_inactive _ _ _ _ hcondF] at hq
            refine ih (page + 1) _ _ _ ?_ q hq
            intro q' hq'
            simp only [List.mem_append, List.mem_singleton] at hq'
            rcases hq' with hq' | hq'
            · exact hreqs q' hq'
            · rw [hq']
              exact pageQueryParams_cursor_none cfg ht page
      · rw [goPage, if_neg hcond] at hq
        exact hreqs q hq

/-! ## Concrete fixtures used by counterexamples and witnesses -/

/-- A retry config: enabled, 3 retries, 500ms base, exponential, common statuses. -/
def cW : RetryConfig := ⟨true, 3, 500, [429, 500, 502, 503], true⟩

/-- A disabled retry config. -/
def cDis : RetryConfig := ⟨false, 5, 500, [429, 500, 502, 503], true⟩

/-- The C2 scenario's page-style pagination config with `maxPages = 3`. -/
def cfgPage3 : PaginationConfig :=
  ⟨PagType.page, "limit", "offset", "page", "cursor", 3, none, none⟩

/-- The C2 scenario with the cap raised to 4 (same API). -/
def cfgPage4 : PaginationConfig :=
  ⟨PagType.page, "limit", "offset", "page", "cursor", 4, none, none⟩

/-- Ten consecutive numeric items starting at `lo`. -/
def tenItems (lo : Nat) : List Json :=
  (List.range 10).map (fun i => Json.num (Int.ofNat (lo + i)))

/-- Mock API of the C2 scenario: 10 items on page 1, 10 items on page 2, an
empty array from page 3 on. -/
def serverTwoPages : List (String × String) → Nat → AttemptOutcome := fun params _ =>
  if params = [("page", "1")] then AttemptOutcome.ok 200 (Json.arr (tenItems 0))
  else if params = [("page", "2")] then AttemptOutcome.ok 200 (Json.arr (tenItems 10))
  else AttemptOutcome.ok 200 (Json.arr [])

/-- Cursor-style pagination config with `nextCursorPath = "next"`. -/
def cfgCur : PaginationConfig :=
  ⟨PagType.cursor, "limit", "offset", "page", "cursor", 5, none, some "next"⟩

/-- Cursor-style pagination config with no `nextCursorPath`. -/
def cfgCurNP : PaginationConfig :=
  ⟨PagType.cursor, "limit", "offset", "page", "cursor", 3, none, none⟩

/-- A body carrying a non-empty continuation cursor. -/
def bodyCur : Json := Json.obj [("next", Json.str "t2")]

/-- A server always answering 200 with `bodyCur`. -/
def serverCur : List (String × String) → Nat → AttemptOutcome :=
  fun _ _ => AttemptOutcome.ok 200 bodyCur

/-! ## Claims -/

/-- C1 (counterexample): the claim says the `success` field of the advanced
executor's result is true iff the final status is in the 2xx range; but a
single request whose only response has status 404 (non-retryable, terminal)
produces a result with `success = true` even though 404 is not in 2xx. -/
theorem advanced_success_counterexample :
    advancedSingleRequest (fun _ => AttemptOutcome.ok 404 Json.null) none =
      Except.ok ⟨true, 404, none⟩ ∧ ¬(200 ≤ 404 ∧ 404 < 300) := by
  exact ⟨rfl, by decide⟩

/-- C1 (amended): in single-request mode the advanced executor reports
`success = true` in every result it produces, whatever the final status
(including non-2xx terminal responses); the `success` iff 2xx rule is the one
computed by the proxy-variant action's summary. -/
theorem advanced_success_always_true :
    (∀ f rc s, advancedSingleRequest f rc = Except.ok s → s.success = true) ∧
    (∀ status : Nat, proxySummarySuccess status = true ↔ 200 ≤ status ∧ status < 300) := by
  constructor
  · intro f rc s h
    rw [advancedSingleRequest] at h
    cases hres : makeRequestWithRetry f rc with
    | error e => rw [hres] at h; simp at h
    | ok r =>
        rw [hres] at h
        simp only [Except.ok.injEq] at h
        rw [← h]
        rfl
  · intro status
    rw [proxySummarySuccess]
    simp

/-- C1 (witness for the amended theorem). -/
theorem advanced_success_always_true_witness :
    (⟨true, 404, none⟩ : Summary).success = true ∧
    (proxySummarySuccess 204 = true ↔ 200 ≤ 204 ∧ 204 < 300) := by
  constructor
  · exact advanced_success_always_true.1 (fun _ => AttemptOutcome.ok 404 Json.null) none
      ⟨true, 404, none⟩ rfl
  · exact advanced_success_always_true.2 204

/-- C2 (counterexample): against the mock API (10 items on pages 1 and 2, an
empty array on page 3) with `maxPages = 3`, the aggregate does have 20 items,
but `pagesProcessed` is 3, not 2: the empty third page is fetched and counted
before the loop stops. -/
theorem pagination_two_full_pages_counterexample :
    handlePagination serverTwoPages none cfgPage3 =
      Except.ok ((List.range 20).map (fun i => some (Json.num (Int.ofNat i))), 3) ∧
    (3 : Nat) ≠ 2 := by
  exact ⟨rfl, by decide⟩

/-- C2 (amended): with `maxPages = 3` and the mock API returning 10 items for
pages 1 and 2 and an empty array for page 3, the run aggregates exactly 20
items and reports `pagesProcessed = 3` (the empty page is fetched and counted);
raising the cap to 4 gives the identical result, so the loop stops because of
the empty page, not the cap. -/
theorem pagination_two_full_pages :
    handlePagination serverTwoPages none cfgPage3 =
      Except.ok ((List.range 20).map (fun i => some (Json.num (Int.ofNat i))), 3) ∧
    handlePagination serverTwoPages none cfgPage4 =
      Except.ok ((List.range 20).map (fun i => some (Json.num (Int.ofNat i))), 3) ∧
    ((List.range 20).map (fun i => some (Json.num (Int.ofNat i)))).length = 20 := by
  exact ⟨rfl, rfl, by decide⟩

/-- C3: the executor never raises because of an HTTP status: (1) when every
attempt yields a response (whatever the status), the result is always `ok`;
(2) a first response whose status is not in `retryOn` is returned immediately,
with zero retries, one fetch, and no sleep; (3) a retryable status on every
attempt ends with the last failing response returned as data (status of attempt
`maxRetries`, `retryCount = maxRetries`), not an error. -/
theorem executor_never_throws_on_status :
    (∀ f rc, (∀ i, ∃ st bd, f i = AttemptOutcome.ok st bd) →
      ∃ r, makeRequestWithRetry f rc = Except.ok r) ∧
    (∀ f rc st bd, f 0 = AttemptOutcome.ok st bd →
      (rcRetryOn rc).contains st = false →
      makeRequestWithRetryRun f rc = ⟨Except.ok ⟨st, bd, 0, 0⟩, 1, []⟩) ∧
    (∀ (c : RetryConfig) (f : Nat → AttemptOutcome) (s : Nat → Nat) (b : Nat → Json),
      c.enabled = true →
      (∀ i, f i = AttemptOutcome.ok (s i) (b i)) →
      (∀ i, s i ∈ c.retryOn) →
      ∃ r, makeRequestWithRetry f (some c) = Except.ok r ∧
        r.status = s c.maxRetries ∧ r.retryCount = c.maxRetries) := by
  refine ⟨?_, ?_, ?_⟩
  · intro f rc hok
    exact goAttempt_ok_of_no_transport_err rc f hok (effMaxRetries rc) 0 0 0 0 [] none
      (by omega)
  · intro f rc st bd h0 hcont
    rw [makeRequestWithRetryRun]
    rw [goAttempt_succ_ok _ _ _ _ _ _ _ _ _ _ st bd h0]
    rw [if_neg (by rw [hcont, Bool.and_false]; simp)]
  · intro c f s b hen hf hs
    have heff : effMaxRetries (some c) = c.maxRetries := by simp [effMaxRetries, hen]
    have hrun := goAttempt_all_retryable c f s b hen hf hs c.maxRetries 0 0 0 0 [] none
      (by omega)
    refine ⟨⟨s c.maxRetries, b c.maxRetries, 0 + c.maxRetries,
      0 + delayFrom (some c) (0 + 1) c.maxRetries⟩, ?_, rfl, by simp⟩
    rw [makeRequestWithRetry, makeRequestWithRetryRun, heff, hrun]

/-- C3 (witness). -/
theorem executor_never_throws_on_status_witness :
    (∃ r, makeRequestWithRetry (fun _ => AttemptOutcome.ok 503 Json.null) none =
      Except.ok r) ∧
    makeRequestWithRetryRun (fun _ => AttemptOutcome.ok 404 Json.null) (some cW) =
      ⟨Except.ok ⟨404, Json.null, 0, 0⟩, 1, []⟩ ∧
    (∃ r, makeRequestWithRetry (fun _ => AttemptOutcome.ok 503 Json.null) (some cW) =
      Except.ok r ∧ r.status = 503 ∧ r.retryCount = cW.maxRetries) := by
  refine ⟨?_, ?_, ?_⟩
  · exact executor_never_throws_on_status.1 _ none (fun i => ⟨503, Json.null, rfl⟩)
  · exact executor_never_throws_on_status.2.1 _ (some cW) 404 Json.null rfl (by decide)
  · exact executor_never_throws_on_status.2.2 cW _ (fun _ => 503) (fun _ => Json.null)
      rfl (fun i => rfl) (fun i => (by decide : (503 : Nat) ∈ cW.retryOn))

/-- C4: a transport failure on every attempt is fatal: (1) single-shot, the
executor propagates the error of the final attempt (the last underlying cause)
and produces no result; (2) inside a pagination run, a page fetch that errors
aborts the whole loop with that error, discarding whatever was already
aggregated in `acc`; (3) end to end, a first page whose every attempt
transport-fails makes `handlePagination` return the fatal error, not a result. -/
theorem transport_exhaustion_fatal :
    (∀ f rc (m : Nat → String), (∀ i, f i = AttemptOutcome.err (m i)) →
      makeRequestWithRetry f rc = Except.error (m (effMaxRetries rc))) ∧
    (∀ server rc cfg fuel page cursor acc reqs e,
      makeRequestWithRetry (server (pageQueryParams cfg page cursor)) rc =
        Except.error e →
      page ≤ cfg.maxPages →
      goPage server rc cfg (fuel + 1) page true cursor acc reqs =
        ⟨Except.error e, reqs ++ [pageQueryParams cfg page cursor]⟩) ∧
    (∀ server rc cfg (m : Nat → String), 1 ≤ cfg.maxPages →
      (∀ i, server (pageQueryParams cfg 1 none) i = AttemptOutcome.err (m i)) →
      handlePagination server rc cfg = Except.error (m (effMaxRetries rc))) := by
  refine ⟨?_, ?_, ?_⟩
  · intro f rc m hf
    exact goAttempt_all_err rc f m hf (effMaxRetries rc) 0 0 0 0 [] none (by omega)
  · intro server rc cfg fuel page cursor acc reqs e hreq hpage
    exact goPage_step_err server rc cfg fuel page true cursor acc reqs e
      (by simp [hpage]) hreq
  · intro server rc cfg m hmp hserver
    obtain ⟨k, hk⟩ : ∃ k, cfg.maxPages = k + 1 := ⟨cfg.maxPages - 1, by omega⟩
    have herr : makeRequestWithRetry (server (pageQueryParams cfg 1 none)) rc =
        Except.error (m (effMaxRetries rc)) :=
      goAttempt_all_err rc _ m hserver (effMaxRetries rc) 0 0 0 0 [] none (by omega)
    rw [handlePagination, handlePaginationRun, hk]
    rw [goPage_step_err _ _ _ _ _ _ _ _ _ _
      (by simp only [Bool.true_and, decide_eq_true_eq]; omega) herr]

/-- C4 (witness). -/
theorem transport_exhaustion_fatal_witness :
    makeRequestWithRetry (fun _ => AttemptOutcome.err "ECONNREFUSED") (some cW) =
      Except.error "ECONNREFUSED" ∧
    handlePagination (fun _ _ => AttemptOutcome.err "ECONNREFUSED") none cfgPage3 =
      Except.error "ECONNREFUSED" := by
  constructor
  · exact transport_exhaustion_fatal.1 _ (some cW) (fun _ => "ECONNREFUSED")
      (fun _ => rfl)
  · exact transport_exhaustion_fatal.2.2 _ none cfgPage3 (fun _ => "ECONNREFUSED")
      (by decide) (fun _ => rfl)

/-- C5: with retry enabled and a retryable status on every attempt, execution
ends with `retryCount = maxRetries`, a total accumulated delay equal to the sum
of the backoff formula over retry indices `0..maxRetries-1`
(`baseDelay * 2^index` when exponential, constant `baseDelay` otherwise), and
the individual sleeps are exactly those per-index delays. -/
theorem retry_exhaustion_backoff_totals (c : RetryConfig) (f : Nat → AttemptOutcome)
    (s : Nat → Nat) (b : Nat → Json)
    (hen : c.enabled = true) (hbase : c.retryDelay ≠ 0)
    (hf : ∀ i, f i = AttemptOutcome.ok (s i) (b i))
    (hs : ∀ i, s i ∈ c.retryOn) :
    ∃ r, makeRequestWithRetry f (some c) = Except.ok r ∧
      r.retryCount = c.maxRetries ∧
      r.retryDelayMs = specBackoffSum c.retryDelay c.exponentialBackoff c.maxRetries ∧
      (makeRequestWithRetryRun f (some c)).sleeps =
        specBackoffDelays c.retryDelay c.exponentialBackoff c.maxRetries := by
  have heff : effMaxRetries (some c) = c.maxRetries := by simp [effMaxRetries, hen]
  have hrun := goAttempt_all_retryable c f s b hen hf hs c.maxRetries 0 0 0 0 [] none
    (by omega)
  simp only [Nat.zero_add, List.nil_append] at hrun
  have hrun' : makeRequestWithRetryRun f (some c) =
      ⟨Except.ok ⟨s c.maxRetries, b c.maxRetries, c.maxRetries,
        delayFrom (some c) 1 c.maxRetries⟩,
        c.maxRetries + 1, sleepsFrom (some c) 1 c.maxRetries⟩ := by
    rw [makeRequestWithRetryRun, heff, hrun]
  refine ⟨⟨s c.maxRetries, b c.maxRetries, c.maxRetries,
    delayFrom (some c) 1 c.maxRetries⟩, ?_, rfl, ?_, ?_⟩
  · rw [makeRequestWithRetry, hrun']
  · exact delayFrom_one_eq_specBackoffSum c hbase c.maxRetries
  · rw [hrun']
    exact sleepsFrom_one_eq_specBackoffDelays c hbase c.maxRetries

/-- C5 (witness): base 500, exponential, 3 retries: sleeps 500, 1000, 2000,
total 3500. -/
theorem retry_exhaustion_backoff_totals_witness :
    (∃ r, makeRequestWithRetry (fun _ => AttemptOutcome.ok 503 Json.null) (some cW) =
      Except.ok r ∧ r.retryCount = cW.maxRetries ∧
      r.retryDelayMs = specBackoffSum cW.retryDelay cW.exponentialBackoff cW.maxRetries ∧
      (makeRequestWithRetryRun (fun _ => AttemptOutcome.ok 503 Json.null)
        (some cW)).sleeps =
        specBackoffDelays cW.retryDelay cW.exponentialBackoff cW.maxRetries) ∧
    specBackoffSum cW.retryDelay cW.exponentialBackoff cW.maxRetries = 3500 ∧
    specBackoffDelays cW.retryDelay cW.exponentialBackoff cW.maxRetries =
      [500, 1000, 2000] := by
  refine ⟨?_, by decide, by decide⟩
  exact retry_exhaustion_backoff_totals cW _ (fun _ => 503) (fun _ => Json.null)
    rfl (by decide) (fun _ => rfl) (fun _ => (by decide : (503 : Nat) ∈ cW.retryOn))

/-- C6: when the retry policy is absent, disabled, or allows zero retries, the
executor makes exactly one fetch attempt and never sleeps, whatever the
response status and even on a transport failure. -/
theorem retry_disabled_single_attempt (f : Nat → AttemptOutcome)
    (rc : Option RetryConfig)
    (h : ∀ c, rc = some c → c.enabled = false ∨ c.maxRetries = 0) :
    (makeRequestWithRetryRun f rc).attemptsMade = 1 ∧
    (makeRequestWithRetryRun f rc).sleeps = [] ∧
    (∀ st bd, f 0 = AttemptOutcome.ok st bd →
      makeRequestWithRetry f rc = Except.ok ⟨st, bd, 0, 0⟩) ∧
    (∀ msg, f 0 = AttemptOutcome.err msg →
      makeRequestWithRetry f rc = Except.error msg) := by
  have heff := effMaxRetries_zero_of_disabled rc h
  have hrun := makeRequestWithRetryRun_no_retry f rc heff
  refine ⟨?_, ?_, ?_, ?_⟩
  · rw [hrun]; cases f 0 <;> rfl
  · rw [hrun]; cases f 0 <;> rfl
  · intro st bd h0
    rw [makeRequestWithRetry, hrun, h0]
  · intro msg h0
    rw [makeRequestWithRetry, hrun, h0]

/-- C6 (witness): disabled policy, transport failure: one attempt, no sleep. -/
theorem retry_disabled_single_attempt_witness :
    (makeRequestWithRetryRun (fun _ => AttemptOutcome.err "timeout")
      (some cDis)).attemptsMade = 1 ∧
    (makeRequestWithRetryRun (fun _ => AttemptOutcome.err "timeout")
      (some cDis)).sleeps = [] := by
  have h := retry_disabled_single_attempt (fun _ => AttemptOutcome.err "timeout")
    (some cDis) (fun c hc => by injection hc with h1; rw [← h1]; exact Or.inl rfl)
  exact ⟨h.1, h.2.1⟩

/-- C7: pagination always respects the cap: a successful run reports
`pagesProcessed ≤ maxPages`, the loop issues at most `maxPages` page requests
(even on error runs), and against an API that always has more data the run
truncates at exactly `maxPages` pages, returning the aggregate with no error. -/
theorem pagination_caps_pages :
    (∀ server rc cfg items n,
      handlePagination server rc cfg = Except.ok (items, n) → n ≤ cfg.maxPages) ∧
    (∀ server rc cfg,
      (handlePaginationRun server rc cfg).requests.length ≤ cfg.maxPages) ∧
    (∀ m, handlePagination serverInf none (cfgInf m) =
      Except.ok (List.replicate m (some (Json.num 1)), m)) := by
  refine ⟨?_, ?_, ?_⟩
  · intro server rc cfg items n hres
    exact goPage_pagesProcessed_le server rc cfg cfg.maxPages 1 true none [] [] items n
      (by omega) hres
  · intro server rc cfg
    have h := goPage_requests_le server rc cfg cfg.maxPages 1 true none [] []
    simpa using h
  · intro m
    have h := goPage_serverInf m m 1 [] [] (by omega)
    rw [handlePagination, handlePaginationRun]
    rw [show (cfgInf m).maxPages = m from rfl, h]
    simp

/-- C7 (witness). -/
theorem pagination_caps_pages_witness :
    (2 : Nat) ≤ (cfgInf 2).maxPages ∧
    handlePagination serverInf none (cfgInf 2) =
      Except.ok (List.replicate 2 (some (Json.num 1)), 2) := by
  constructor
  · exact pagination_caps_pages.1 serverInf none (cfgInf 2)
      (List.replicate 2 (some (Json.num 1))) 2 (pagination_caps_pages.2.2 2)
  · exact pagination_caps_pages.2.2 2

/-- C8: in cursor-style pagination with a non-empty `nextCursorPath`, after a
page is fetched and pushed the loop continues with `hasMore` equal to the
truthiness of the value at `nextCursorPath` in the decoded body, which becomes
the next cursor; when that value is falsy the run stops immediately with the
final page's items included; for a string cursor, truthiness is exactly
non-emptiness; and when truthy, the next page's request carries it as the
cursor query parameter. -/
theorem cursor_pagination_continuation
    (server : List (String × String) → Nat → AttemptOutcome)
    (rc : Option RetryConfig) (cfg : PaginationConfig) (p : String)
    (fuel page : Nat) (cursor : JsVal) (acc : List JsVal)
    (reqs : List (List (String × String))) (r : RetryResult)
    (ht : cfg.type = PagType.cursor) (hp : cfg.nextCursorPath = some p) (hne : p ≠ "")
    (hpage : page ≤ cfg.maxPages)
    (hreq : makeRequestWithRetry (server (pageQueryParams cfg page cursor)) rc =
      Except.ok r) :
    goPage server rc cfg (fuel + 1) page true cursor acc reqs =
      goPage server rc cfg fuel (page + 1)
        (jsTruthy (getValueByPath (some r.body) p)) (getValueByPath (some r.body) p)
        (pushResults acc (extractResults cfg r.body))
        (reqs ++ [pageQueryParams cfg page cursor]) ∧
    (jsTruthy (getValueByPath (some r.body) p) = false →
      (goPage server rc cfg (fuel + 1) page true cursor acc reqs).result =
        Except.ok (pushResults acc (extractResults cfg r.body), page)) ∧
    (∀ s, getValueByPath (some r.body) p = some (Json.str s) →
      jsTruthy (getValueByPath (some r.body) p) = decide (s ≠ "")) ∧
    (∀ v, getValueByPath (some r.body) p = some v →
      jsTruthy (getValueByPath (some r.body) p) = true →
      pageQueryParams cfg (page + 1) (getValueByPath (some r.body) p) =
        [(cfg.cursorParam, jsToString v)]) := by
  have hcond : (true && decide (page ≤ cfg.maxPages)) = true := by simp [hpage]
  have hnext := nextPageState_cursor_active cfg r.body (extractResults cfg r.body)
    cursor p ht hp hne
  have hstep := goPage_step_ok server rc cfg fuel page true cursor acc reqs r hcond hreq
  rw [hnext] at hstep
  refine ⟨hstep, ?_, ?_, ?_⟩
  · intro hfalse
    rw [hstep]
    have hstop := goPage_no_more server rc cfg fuel (page + 1)
      (getValueByPath (some r.body) p) (pushResults acc (extractResults cfg r.body))
      (reqs ++ [pageQueryParams cfg page cursor])
    rw [show ((jsTruthy (getValueByPath (some r.body) p), getValueByPath (some r.body) p)).1 =
      jsTruthy (getValueByPath (some r.body) p) from rfl, hfalse, hstop]
    simp
  · intro s hs
    rw [hs]
    rfl
  · intro v hv htruthy
    rw [hv] at htruthy ⊢
    rw [pageQueryParams, ht]
    simp [htruthy]

/-- C8 (witness). -/
theorem cursor_pagination_continuation_witness :
    jsTruthy (getValueByPath (some bodyCur) "next") = decide (("t2" : String) ≠ "") ∧
    pageQueryParams cfgCur 2 (getValueByPath (some bodyCur) "next") =
      [(cfgCur.cursorParam, jsToString (Json.str "t2"))] := by
  have h := cursor_pagination_continuation serverCur none cfgCur "next" 4 1 none [] []
    ⟨200, bodyCur, 0, 0⟩ rfl rfl (by decide) (by decide) rfl
  exact ⟨h.2.2.1 "t2" rfl, h.2.2.2 (Json.str "t2") rfl rfl⟩

/-- C9: whatever mix of transport failures and retryable statuses occurs, a
result returned by the executor reports `retryCount` at most the policy's
`maxRetries`. -/
theorem retryCount_le_maxRetries (f : Nat → AttemptOutcome) (c : RetryConfig)
    (r : RetryResult) (h : makeRequestWithRetry f (some c) = Except.ok r) :
    r.retryCount ≤ c.maxRetries := by
  have heff : effMaxRetries (some c) ≤ c.maxRetries := by
    by_cases hc : c.enabled = true <;> simp [effMaxRetries, hc]
  exact le_trans (goAttempt_retryCount_le (some c) f (effMaxRetries (some c))
    (effMaxRetries (some c) + 1) 0 0 0 0 [] none r (le_refl 0) (Nat.zero_le _) h) heff

/-- C9 (witness). -/
theorem retryCount_le_maxRetries_witness :
    (⟨200, Json.null, 0, 0⟩ : RetryResult).retryCount ≤ cW.maxRetries :=
  retryCount_le_maxRetries (fun _ => AttemptOutcome.ok 200 Json.null) cW
    ⟨200, Json.null, 0, 0⟩ rfl

/-- C10: cursor-style pagination without a `nextCursorPath` never consults a
cursor: each fetched page continues the loop iff its extracted result is a
non-empty array (the cursor variable passing through unchanged), and since the
cursor is never assigned, every page request of a whole run carries no query
parameters at all — in particular never the cursor parameter. -/
theorem cursor_style_without_path
    (server : List (String × String) → Nat → AttemptOutcome)
    (rc : Option RetryConfig) (cfg : PaginationConfig)
    (ht : cfg.type = PagType.cursor) (hpath : cfg.nextCursorPath = none) :
    (∀ fuel page cursor acc reqs r,
      page ≤ cfg.maxPages →
      makeRequestWithRetry (server (pageQueryParams cfg page cursor)) rc =
        Except.ok r →
      goPage server rc cfg (fuel + 1) page true cursor acc reqs =
        goPage server rc cfg fuel (page + 1)
          (isNonemptyArray (extractResults cfg r.body)) cursor
          (pushResults acc (extractResults cfg r.body))
          (reqs ++ [pageQueryParams cfg page cursor])) ∧
    (∀ q ∈ (handlePaginationRun server rc cfg).requests, q = []) ∧
    (∀ q ∈ (handlePaginationRun server rc cfg).requests,
      ∀ v, (cfg.cursorParam, v) ∉ q) := by
  have hcpa : cursorPathActive cfg = false := by simp [cursorPathActive, hpath]
  have hcondF : (cfg.type == PagType.cursor && cursorPathActive cfg) = false := by
    rw [hcpa, Bool.and_false]
  have hreqs : ∀ q ∈ (handlePaginationRun server rc cfg).requests, q = [] := by
    intro q hq
    exact goPage_cursor_inactive_requests server rc cfg ht hcpa cfg.maxPages 1 true [] []
      (by intro q' hq'; simp at hq') q hq
  refine ⟨?_, hreqs, ?_⟩
  · intro fuel page cursor acc reqs r hpage hreq
    have hstep := goPage_step_ok server rc cfg fuel page true cursor acc reqs r
      (by simp [hpage]) hreq
    rw [nextPageState_cursor_inactive _ _ _ _ hcondF] at hstep
    exact hstep
  · intro q hq v
    rw [hreqs q hq]
    simp

/-- C10 (witness). -/
theorem cursor_style_without_path_witness :
    goPage serverCur none cfgCurNP 2 1 true none [] [] =
      goPage serverCur none cfgCurNP 1 2
        (isNonemptyArray (extractResults cfgCurNP bodyCur)) none
        (pushResults [] (extractResults cfgCurNP bodyCur))
        ([] ++ [pageQueryParams cfgCurNP 1 none]) := by
  exact (cursor_style_without_path serverCur none cfgCurNP rfl rfl).1 1 1 none [] []
    ⟨200, bodyCur, 0, 0⟩ (by decide) rfl
